import Mathlib

/-!
# EasyWay accessible-routing engine: a shallow embedding

This file embeds the accessibility-aware routing core of the EasyWay
pedestrian-navigation application (`src/routing.code`) in Lean 4 and proves
properties of it.

Modelling conventions:
* JavaScript numbers are modelled as exact rationals (`ℚ`); all the claims
  under study are order/field facts that are insensitive to the float
  representation.
* JavaScript `Map` objects are modelled as functions into `Option`
  (`Map.get` on a missing key is `undefined`, i.e. `none`).
* A field a JavaScript result object may lack (`totalWeight`,
  `accessibilityScore`, `notFound`) is modelled as an `Option` (or, for the
  boolean `notFound` flag, as `false` when absent, matching JS truthiness).
* The heuristic in the source is the Haversine great-circle distance
  (`calculateDistance`), a transcendental real-valued function; none of the
  properties below depend on its values, so the search is parameterised over
  an arbitrary heuristic function `h : String → ℚ`.
* The unbounded `while` loop of the A* search and the back-pointer walk of
  path reconstruction are given explicit fuel; `none` means the fuel ran out
  before the source loop would have returned.
-/

namespace EasyWay

/-- A node of the pedestrian network: `{id, lat, lng, name?}`.  Coordinates
are only consumed by the (abstracted) heuristic, so they are kept as `ℚ`. -/
structure Node where
  id : String
  lat : ℚ
  lng : ℚ
  deriving Repr, DecidableEq

/-- An edge record: `{from, to, distance, surface, curb, hasRamp, slope,
width, temporary?}`.  The JS keys `from`/`to` are Lean keywords, hence
`fromId`/`toId`. -/
structure Edge where
  fromId : String
  toId : String
  distance : ℚ
  surface : String
  curb : ℚ
  hasRamp : Bool
  slope : ℚ
  width : ℚ
  temporary : Option String
  deriving Repr, DecidableEq

/-- A user accessibility profile. -/
structure Profile where
  mobilityType : String
  maxCurbHeight : ℚ
  maxSlope : ℚ
  minWidth : ℚ
  deriving Repr, DecidableEq

/-- JS truthiness of the optional `temporary` tag: `undefined` and the empty
string are falsy, any other string is truthy. -/
def strTruthy : Option String → Bool
  | none => false
  | some s => s ≠ ""

/-- `isEdgeAccessible(edge, profile)` from `src/routing.code` lines 25–47:
four independent disqualifiers, tested in source order.  Note the slope test
compares the *signed* slope against the limit (no `Math.abs` in the code). -/
def isEdgeAccessible (edge : Edge) (profile : Profile) : Bool :=
  if edge.curb > profile.maxCurbHeight ∧ edge.hasRamp = false then false
  else if edge.slope > profile.maxSlope then false
  else if edge.width < profile.minWidth then false
  else if edge.temporary = some "repair" ∧ profile.mobilityType = "wheelchair" then false
  else true

/-- The surface-penalty lookup table of `calculateEdgeWeight`
(`surfacePenalty[edge.surface] || 1.2`). -/
def surfacePenalty (s : String) : ℚ :=
  if s = "asphalt" then 1
  else if s = "concrete" then 1
  else if s = "wood" then 11 / 10
  else if s = "gravel" then 3 / 2
  else if s = "cobblestone" then 9 / 5
  else if s = "stone" then 2
  else if s = "sand" then 5 / 2
  else 6 / 5

/-- `calculateEdgeWeight`, after the surface-penalty step
(`weight = edge.distance; weight *= surfacePenalty…`). -/
def weightAfterSurface (edge : Edge) : ℚ :=
  edge.distance * surfacePenalty edge.surface

/-- …after the slope-penalty step: only a positive slope is penalised, with
an extra 1.5× for an unassisted wheelchair on slopes above 5%. -/
def weightAfterSlope (edge : Edge) (profile : Profile) : ℚ :=
  if edge.slope > 0 then
    if profile.mobilityType = "wheelchair" ∧ edge.slope > 5 then
      weightAfterSurface edge * (1 + edge.slope / 10) * (3 / 2)
    else
      weightAfterSurface edge * (1 + edge.slope / 10)
  else weightAfterSurface edge

/-- …after the curb-penalty step (`curb > 0` and no ramp). -/
def weightAfterCurb (edge : Edge) (profile : Profile) : ℚ :=
  if edge.curb > 0 ∧ edge.hasRamp = false then
    weightAfterSlope edge profile * (1 + edge.curb / 5)
  else weightAfterSlope edge profile

/-- …after the narrow-width penalty step (`width < 150`). -/
def weightAfterWidth (edge : Edge) (profile : Profile) : ℚ :=
  if edge.width < 150 then
    weightAfterCurb edge profile * (1 + (150 - edge.width) / 100)
  else weightAfterCurb edge profile

/-- `calculateEdgeWeight(edge, profile)` from `src/routing.code` lines
53–97: the full chain of multiplicative penalties, ending with the ×2.0
temporary-restriction penalty. -/
def calculateEdgeWeight (edge : Edge) (profile : Profile) : ℚ :=
  if strTruthy edge.temporary then weightAfterWidth edge profile * 2
  else weightAfterWidth edge profile

/-- `getEdgeAccessibilityLevel(edge, profile)`: the tri-level
classification, returned as the source's string literals. -/
def getEdgeAccessibilityLevel (edge : Edge) (profile : Profile) : String :=
  if isEdgeAccessible edge profile = false then "inaccessible"
  else if edge.curb > 3 ∨ edge.slope > 5 ∨ edge.surface = "cobblestone" ∨
      edge.surface = "gravel" ∨ strTruthy edge.temporary then "partial"
  else "accessible"

/-- JS `Math.round`: round half toward positive infinity. -/
def jsRound (q : ℚ) : ℤ := ⌊q + 1 / 2⌋

/-- `calculateAccessibilityScore(edges, profile)`: 100 for an empty edge
list, otherwise the rounded mean of per-edge scores 100/60/0. -/
def calculateAccessibilityScore (edges : List Edge) (profile : Profile) : ℤ :=
  if edges.length = 0 then 100
  else
    let totalScore : ℚ := edges.foldl (fun acc e =>
      let level := getEdgeAccessibilityLevel e profile
      if level = "accessible" then acc + 100
      else if level = "partial" then acc + 60
      else acc) 0
    jsRound (totalScore / edges.length)

/-- One entry of an adjacency list: `{to: …, edge: …}`. -/
structure AdjEntry where
  toId : String
  edge : Edge
  deriving Repr, DecidableEq

/-- The initialisation loop of `buildAdjacencyList`:
`nodes.forEach(node => adjacencyList.set(node.id, []))`. -/
def initAdjacency (nodes : List Node) : String → Option (List AdjEntry) :=
  nodes.foldl (fun m n => fun id => if id = n.id then some [] else m id)
    (fun _ => none)

/-- The body of the edge loop of `buildAdjacencyList`: push
`{to: edge.to, edge}` onto the list of `edge.from` (if that key exists),
then `{to: edge.from, edge}` onto the list of `edge.to` (if that key
exists). -/
def pushEdge (m : String → Option (List AdjEntry)) (e : Edge) :
    String → Option (List AdjEntry) :=
  let m1 : String → Option (List AdjEntry) := fun id =>
    if id = e.fromId then (m id).map (· ++ [⟨e.toId, e⟩]) else m id
  fun id => if id = e.toId then (m1 id).map (· ++ [⟨e.fromId, e⟩]) else m1 id

/-- `buildAdjacencyList(nodes, edges)` from `src/routing.code` lines
125–146.  The JS `Map` is modelled as a function into `Option`: every node
id is first bound to `[]`, then each edge is pushed onto the lists of both
its endpoints; `adjacencyList.get(edge.from)?.push(…)` silently does
nothing when the endpoint is not a key of the map. -/
def buildAdjacencyList (nodes : List Node) (edges : List Edge) :
    String → Option (List AdjEntry) :=
  edges.foldl pushEdge (initAdjacency nodes)

/-- An open-set entry `{id, fScore}`. -/
structure OpenEntry where
  id : String
  fScore : ℚ
  deriving Repr, DecidableEq

/-- Stable ascending insertion used by `sortByF`. -/
def insertByF (x : OpenEntry) : List OpenEntry → List OpenEntry
  | [] => [x]
  | y :: ys => if x.fScore ≤ y.fScore then x :: y :: ys else y :: insertByF x ys

/-- `openSet.sort((a, b) => a.fScore - b.fScore)`: JS `Array.sort` is a
stable ascending sort; any stable sort produces the same list, so a stable
insertion sort is used here. -/
def sortByF : List OpenEntry → List OpenEntry
  | [] => []
  | x :: xs => insertByF x (sortByF xs)

/-- The mutable bookkeeping of the A* loop: the open set plus the
`cameFrom`, `gScore` and `edgeUsed` maps. -/
structure SearchState where
  openSet : List OpenEntry
  cameFrom : String → Option String
  gScore : String → Option ℚ
  edgeUsed : String → Option Edge

/-- One step of the inner `for (const neighbor of neighbors)` loop
(`src/routing.code` lines 186–206): skip inaccessible edges; on an improved
(or first) tentative g-score record back-pointer, edge and g-score, and push
an open-set entry only if none for that node is already present (the source
does not update an existing entry's f-score).  `gScore.get(current.id)` is
always defined in states the search reaches; the `undefined` case is
modelled as 0. -/
def tentativeGScore (profile : Profile) (st : SearchState) (currentId : String)
    (nb : AdjEntry) : ℚ :=
  (st.gScore currentId).getD 0 + calculateEdgeWeight nb.edge profile

/-- `!gScore.has(neighbor.to) || tentativeGScore < gScore.get(neighbor.to)`. -/
def improvesGScore (gOld : Option ℚ) (tentative : ℚ) : Bool :=
  match gOld with
  | none => true
  | some g => tentative < g

def relaxNeighbor (profile : Profile) (h : String → ℚ) (currentId : String)
    (st : SearchState) (nb : AdjEntry) : SearchState :=
  if isEdgeAccessible nb.edge profile = false then st
  else if improvesGScore (st.gScore nb.toId) (tentativeGScore profile st currentId nb) then
    { openSet :=
        if (st.openSet.find? (fun n => n.id = nb.toId)).isSome then st.openSet
        else st.openSet ++
          [⟨nb.toId, tentativeGScore profile st currentId nb + h nb.toId⟩],
      cameFrom := fun id => if id = nb.toId then some currentId else st.cameFrom id,
      gScore := fun id =>
        if id = nb.toId then some (tentativeGScore profile st currentId nb)
        else st.gScore id,
      edgeUsed := fun id => if id = nb.toId then some nb.edge else st.edgeUsed id }
  else st

/-- A problem-segment record `{edge, level, reasons}`. -/
structure Issue where
  edge : Edge
  level : String
  reasons : List String
  deriving Repr, DecidableEq

/-- The reason tags collected for one problematic edge
(`src/routing.code` lines 233–253), in source order. -/
def issueReasons (edge : Edge) : List String :=
  (if edge.curb > 3 then ["Бордюр " ++ toString edge.curb ++ " см"] else []) ++
  (if edge.slope > 5 then ["Уклон " ++ toString edge.slope ++ "%"] else []) ++
  (if edge.surface = "cobblestone" ∨ edge.surface = "gravel" then
    [if edge.surface = "cobblestone" then "Покрытие: брусчатка" else "Покрытие: гравий"]
  else []) ++
  (if strTruthy edge.temporary then ["Временные ограничения"] else []) ++
  (if edge.hasRamp = false ∧ edge.curb > 0 then ["Нет пандуса"] else [])

/-- The `while (cameFrom.has(current))` walk of `reconstructPath`
(`src/routing.code` lines 216–259), with accumulators for `path`, `edges`,
`totalDistance` and `issues` and explicit fuel.  In the source `cameFrom`
and `edgeUsed` are always populated together, so the mismatch case (second
pattern) is unreachable from the search. -/
def reconstructLoop (cameFrom : String → Option String)
    (edgeUsed : String → Option Edge) (profile : Profile) :
    Nat → String → List String → List Edge → ℚ → List Issue →
    Option (List String × List Edge × ℚ × List Issue)
  | fuel, current, path, edges, dist, issues =>
    match cameFrom current, edgeUsed current with
    | some prev, some edge =>
      (match fuel with
      | 0 => none
      | fuel' + 1 =>
        let accessibility := getEdgeAccessibilityLevel edge profile
        let issues' :=
          if accessibility ≠ "accessible" then
            issues ++ [⟨edge, accessibility, issueReasons edge⟩]
          else issues
        reconstructLoop cameFrom edgeUsed profile fuel' prev (prev :: path)
          (edge :: edges) (dist + edge.distance) issues')
    | _, _ => some (path, edges, dist, issues)

/-- A route result.  `totalWeight` and `accessibilityScore` are `Option`
because the two failure objects of the source carry neither field;
`notFound` is absent (falsy) except on search exhaustion. -/
structure RouteResult where
  path : List String
  edges : List Edge
  totalDistance : ℚ
  totalWeight : Option ℚ
  issues : List Issue
  accessibilityScore : Option ℤ
  notFound : Bool
  deriving Repr, DecidableEq

/-- `reconstructPath(cameFrom, edgeUsed, endId, totalWeight, profile)`
(`src/routing.code` lines 216–270): walk the back-pointers, then assemble
the success result with `totalWeight` and `accessibilityScore`. -/
def reconstructPath (fuel : Nat) (cameFrom : String → Option String)
    (edgeUsed : String → Option Edge) (endId : String) (totalWeight : ℚ)
    (profile : Profile) : Option RouteResult :=
  match reconstructLoop cameFrom edgeUsed profile fuel endId [endId] [] 0 [] with
  | none => none
  | some (path, edges, totalDistance, issues) =>
    some { path := path, edges := edges, totalDistance := totalDistance,
           totalWeight := some totalWeight, issues := issues,
           accessibilityScore := some (calculateAccessibilityScore edges profile),
           notFound := false }

/-- The failure result returned when the open set empties:
`{path: [], edges: [], totalDistance: 0, issues: [], notFound: true}`. -/
def notFoundResult : RouteResult :=
  { path := [], edges := [], totalDistance := 0, totalWeight := none,
    issues := [], accessibilityScore := none, notFound := true }

/-- The failure result returned when an endpoint is missing:
`{path: [], edges: [], totalDistance: 0, issues: []}` (no `notFound`). -/
def badInputResult : RouteResult :=
  { path := [], edges := [], totalDistance := 0, totalWeight := none,
    issues := [], accessibilityScore := none, notFound := false }

/-- The `while (openSet.length > 0)` loop of `findAccessibleRoute`
(`src/routing.code` lines 168–207): sort the open set, shift the minimum,
return via `reconstructPath` at the goal, otherwise relax every neighbor
and continue.  Fuel is consumed only by the recursive call, so an exit
through an empty open set or through the goal needs no fuel. -/
def searchLoop (graph : String → Option (List AdjEntry)) (endId : String)
    (profile : Profile) (h : String → ℚ) :
    Nat → SearchState → Option RouteResult
  | fuel, st =>
    match sortByF st.openSet with
    | [] => some notFoundResult
    | current :: rest =>
      if current.id = endId then
        reconstructPath fuel st.cameFrom st.edgeUsed current.id
          ((st.gScore endId).getD 0) profile
      else
        match fuel with
        | 0 => none
        | fuel' + 1 =>
          let neighbors := (graph current.id).getD []
          searchLoop graph endId profile h fuel'
            (neighbors.foldl (relaxNeighbor profile h current.id)
              { st with openSet := rest })

/-- `new Map(nodes.map(n => [n.id, n]))`: later duplicates override. -/
def nodeLookup (nodes : List Node) : String → Option Node :=
  nodes.foldl (fun m n => fun id => if id = n.id then some n else m id)
    (fun _ => none)

/-- `findAccessibleRoute(graph, nodes, startId, endId, profile)`
(`src/routing.code` lines 151–211).  The heuristic of the source is the
Haversine distance to `endNode`; it is abstracted here as the parameter
`h`, since it is real-valued (transcendental) and no property below
depends on its values. -/
def findAccessibleRoute (graph : String → Option (List AdjEntry))
    (nodes : List Node) (startId endId : String) (profile : Profile)
    (h : String → ℚ) (fuel : Nat) : Option RouteResult :=
  let nodeMap := nodeLookup nodes
  match nodeMap startId, nodeMap endId with
  | some _, some _ =>
    searchLoop graph endId profile h fuel
      { openSet := [⟨startId, h startId⟩],
        cameFrom := fun _ => none,
        gScore := fun id => if id = startId then some 0 else none,
        edgeUsed := fun _ => none }
  | _, _ => some badInputResult

/-! ## Derived definitions used by the statements

`specAccessibilityScore` restates the scoring rule in the spec's words
(rounded mean of per-edge scores), to be compared with the source's
`calculateAccessibilityScore`.  `entriesFor` captures the adjacency entries
one edge contributes for one node id.  `edgesAccessible` is the invariant
that every recorded back-edge passed the accessibility gate. -/

/-- The per-edge score of the spec: accessible→100, partial→60,
inaccessible→0. -/
def perEdgeScore (edge : Edge) (profile : Profile) : ℚ :=
  if getEdgeAccessibilityLevel edge profile = "accessible" then 100
  else if getEdgeAccessibilityLevel edge profile = "partial" then 60
  else 0

/-- The accessibility score as the spec words it: the rounded mean over the
route's edges of the per-edge score, 100 for an empty edge list. -/
def specAccessibilityScore (edges : List Edge) (profile : Profile) : ℤ :=
  if edges.length = 0 then 100
  else jsRound ((edges.map (perEdgeScore · profile)).sum / edges.length)

/-- The adjacency entries a single edge contributes to the list of node
`id`: one per endpoint equal to `id` (both for a self-loop), in the push
order of the source. -/
def entriesFor (e : Edge) (id : String) : List AdjEntry :=
  (if id = e.fromId then [⟨e.toId, e⟩] else []) ++
  (if id = e.toId then [⟨e.fromId, e⟩] else [])

/-- Every edge recorded in `edgeUsed` passed the accessibility gate. -/
def edgesAccessible (profile : Profile) (st : SearchState) : Prop :=
  ∀ id e, st.edgeUsed id = some e → isEdgeAccessible e profile = true

/-! ## Concrete inputs used in counterexamples and witnesses -/

/-- An edge with a steep *negative* slope (−10%), all other attributes
clear. -/
def slopeEdge : Edge := ⟨"A", "B", 100, "asphalt", 0, false, -10, 200, none⟩

/-- A wheelchair profile with `maxSlope = 8`. -/
def slopeProfile : Profile := ⟨"wheelchair", 5, 8, 90⟩

/-- A self-loop edge with negative distance (malformed on both counts). -/
def loopEdge : Edge := ⟨"A", "A", -5, "asphalt", 0, false, 0, 200, none⟩

/-- The single node of the self-loop graph. -/
def loopNode : Node := ⟨"A", 0, 0⟩

/-- A well-formed edge between two distinct nodes. -/
def wfEdge : Edge := ⟨"A", "B", 100, "asphalt", 0, false, 0, 200, none⟩

/-- Nodes for the well-formed-edge graph. -/
def wfNodes : List Node := [⟨"A", 0, 0⟩, ⟨"B", 0, 1⟩]

/-- Nodes of the two-node graph whose only edge fails the gate. -/
def gateNodes : List Node := [⟨"A", 0, 0⟩, ⟨"C", 0, 1⟩]

/-- The only edge of the gate graph: a 10 cm curb and no ramp. -/
def gateEdge : Edge := ⟨"A", "C", 50, "asphalt", 10, false, 0, 200, none⟩

/-- A profile with `maxCurbHeight = 5`, rejecting `gateEdge`. -/
def gateProfile : Profile := ⟨"wheelchair", 5, 8, 90⟩

/-- A search state holding a stale open-set entry for node B (f-score 999)
while B has no recorded g-score yet. -/
def staleState : SearchState :=
  { openSet := [⟨"B", 999⟩],
    cameFrom := fun _ => none,
    gScore := fun id => if id = "A" then some 0 else none,
    edgeUsed := fun _ => none }

/-- An all-clear edge from A to B used to relax B in `staleState`. -/
def staleEdge : Edge := ⟨"A", "B", 50, "asphalt", 0, false, 0, 200, none⟩

/-- A stroller profile accepting `staleEdge`. -/
def staleProfile : Profile := ⟨"stroller", 5, 8, 90⟩

/-! ## Shared lemmas -/

/-- The accessibility gate, characterised as a disjunction of the four
disqualifiers of the source (the slope disqualifier compares the *signed*
slope). -/
lemma isEdgeAccessible_false_iff (edge : Edge) (profile : Profile) :
    isEdgeAccessible edge profile = false ↔
      ((edge.curb > profile.maxCurbHeight ∧ edge.hasRamp = false) ∨
       edge.slope > profile.maxSlope ∨
       edge.width < profile.minWidth ∨
       (edge.temporary = some "repair" ∧ profile.mobilityType = "wheelchair")) := by
  unfold isEdgeAccessible
  split_ifs with h1 h2 h3 h4 <;> simp_all

lemma surfacePenalty_one_le (s : String) : 1 ≤ surfacePenalty s := by
  unfold surfacePenalty
  split_ifs <;> norm_num

lemma le_mul_step {w f : ℚ} (hw : 0 ≤ w) (hf : 1 ≤ f) : w ≤ w * f ∧ 0 ≤ w * f :=
  ⟨le_mul_of_one_le_right hw hf, mul_nonneg hw (le_trans zero_le_one hf)⟩

/-! ## C1 — the accessibility gate and the slope sign -/

/-- C1 counterexample: at `slopeEdge` (slope −10) and `slopeProfile`
(maxSlope 8) the claimed equivalence fails: the magnitude of the slope
exceeds the limit — the claim's slope disqualifier holds — yet the code
accepts the edge, because it compares the signed slope. -/
theorem c1_counterexample :
    isEdgeAccessible slopeEdge slopeProfile = true ∧
    |slopeEdge.slope| > slopeProfile.maxSlope := by
  constructor
  · decide
  · norm_num [slopeEdge, slopeProfile]

/-- C1 (amended): `isEdgeAccessible` returns false iff one of the four
disqualifiers holds, where the slope disqualifier is `slope > maxSlope` on
the signed grade (a negative slope never disqualifies); equality at any
threshold is accessible. -/
theorem c1_gate_characterisation (edge : Edge) (profile : Profile) :
    isEdgeAccessible edge profile = false ↔
      ((edge.curb > profile.maxCurbHeight ∧ edge.hasRamp = false) ∨
       edge.slope > profile.maxSlope ∨
       edge.width < profile.minWidth ∨
       (edge.temporary = some "repair" ∧ profile.mobilityType = "wheelchair")) :=
  isEdgeAccessible_false_iff edge profile

/-! ## C2 — the cost function dominates physical distance -/

/-- C2: for every edge with nonnegative distance, curb and width, and every
profile, the computed weight is at least the edge's distance (every penalty
factor is ≥ 1). -/
theorem c2_weight_ge_distance (edge : Edge) (profile : Profile)
    (hd : 0 ≤ edge.distance) (hc : 0 ≤ edge.curb) (hw : 0 ≤ edge.width) :
    edge.distance ≤ calculateEdgeWeight edge profile := by
  have h1 := le_mul_step hd (surfacePenalty_one_le edge.surface)
  rw [← weightAfterSurface] at h1
  have h2 : weightAfterSurface edge ≤ weightAfterSlope edge profile ∧
      0 ≤ weightAfterSlope edge profile := by
    unfold weightAfterSlope
    split_ifs with hs hwc
    · have ha := le_mul_step h1.2 (by linarith : (1:ℚ) ≤ 1 + edge.slope / 10)
      have hb := le_mul_step ha.2 (by norm_num : (1:ℚ) ≤ 3 / 2)
      exact ⟨le_trans ha.1 hb.1, hb.2⟩
    · exact le_mul_step h1.2 (by linarith)
    · exact ⟨le_refl _, h1.2⟩
  have h3 : weightAfterSlope edge profile ≤ weightAfterCurb edge profile ∧
      0 ≤ weightAfterCurb edge profile := by
    unfold weightAfterCurb
    split_ifs with hcc
    · exact le_mul_step h2.2 (by linarith [hcc.1] : (1:ℚ) ≤ 1 + edge.curb / 5)
    · exact ⟨le_refl _, h2.2⟩
  have h4 : weightAfterCurb edge profile ≤ weightAfterWidth edge profile ∧
      0 ≤ weightAfterWidth edge profile := by
    unfold weightAfterWidth
    split_ifs with hww
    · exact le_mul_step h3.2 (by linarith : (1:ℚ) ≤ 1 + (150 - edge.width) / 100)
    · exact ⟨le_refl _, h3.2⟩
  have h5 : weightAfterWidth edge profile ≤ calculateEdgeWeight edge profile := by
    unfold calculateEdgeWeight
    split_ifs with ht
    · exact (le_mul_step h4.2 (by norm_num)).1
    · exact le_refl _
  calc edge.distance ≤ weightAfterSurface edge := h1.1
    _ ≤ weightAfterSlope edge profile := h2.1
    _ ≤ weightAfterCurb edge profile := h3.1
    _ ≤ weightAfterWidth edge profile := h4.1
    _ ≤ calculateEdgeWeight edge profile := h5

/-- C2 witness: the weight of `slopeEdge` under `slopeProfile` dominates
its distance. -/
theorem c2_weight_ge_distance_witness :
    slopeEdge.distance ≤ calculateEdgeWeight slopeEdge slopeProfile :=
  c2_weight_ge_distance slopeEdge slopeProfile (by decide) (by decide) (by decide)

/-! ## C6 — monotonicity of the gate in the profile limits -/

/-- C6: with the same mobility type, a profile at least as permissive on
every limit accepts every edge the stricter profile accepts. -/
theorem c6_gate_monotone (edge : Edge) (p1 p2 : Profile)
    (hm : p1.mobilityType = p2.mobilityType)
    (hcurb : p1.maxCurbHeight ≤ p2.maxCurbHeight)
    (hslope : p1.maxSlope ≤ p2.maxSlope)
    (hwidth : p2.minWidth ≤ p1.minWidth)
    (hacc : isEdgeAccessible edge p1 = true) :
    isEdgeAccessible edge p2 = true := by
  rcases Bool.eq_false_or_eq_true (isEdgeAccessible edge p2) with h | h
  · exact h
  · rw [isEdgeAccessible_false_iff] at h
    have h1 : isEdgeAccessible edge p1 = false := by
      rw [isEdgeAccessible_false_iff]
      rcases h with ⟨ha, hb⟩ | ha | ha | ⟨ha, hb⟩
      · exact Or.inl ⟨lt_of_le_of_lt hcurb ha, hb⟩
      · exact Or.inr (Or.inl (lt_of_le_of_lt hslope ha))
      · exact Or.inr (Or.inr (Or.inl (lt_of_lt_of_le ha hwidth)))
      · exact Or.inr (Or.inr (Or.inr ⟨ha, hm ▸ hb⟩))
    rw [hacc] at h1
    exact absurd h1 (by simp)

/-- C6 witness: `slopeEdge` is accessible under `slopeProfile` and stays
accessible when every limit is relaxed. -/
theorem c6_gate_monotone_witness :
    isEdgeAccessible slopeEdge ⟨"wheelchair", 6, 9, 80⟩ = true :=
  c6_gate_monotone slopeEdge slopeProfile ⟨"wheelchair", 6, 9, 80⟩
    (by decide) (by decide) (by decide) (by decide) (by decide)

/-! ## C8 — the accessibility score is the rounded mean -/

lemma score_foldl_eq (profile : Profile) (edges : List Edge) : ∀ acc : ℚ,
    edges.foldl (fun acc e =>
      let level := getEdgeAccessibilityLevel e profile
      if level = "accessible" then acc + 100
      else if level = "partial" then acc + 60
      else acc) acc = acc + (edges.map (perEdgeScore · profile)).sum := by
  induction edges with
  | nil => intro acc; simp
  | cons e es ih =>
    intro acc
    simp only [List.foldl_cons, List.map_cons, List.sum_cons, ih]
    unfold perEdgeScore
    split_ifs <;> ring

/-- C8: the source's score equals the spec's rounded mean of per-edge
scores (100/60/0), with 100 for an empty edge list. -/
theorem c8_score_is_rounded_mean (edges : List Edge) (profile : Profile) :
    calculateAccessibilityScore edges profile = specAccessibilityScore edges profile := by
  unfold calculateAccessibilityScore specAccessibilityScore
  split_ifs with h
  · rfl
  · rw [score_foldl_eq profile edges 0, zero_add]

/-! ## C9 — graph construction and malformed edges -/

lemma pushEdge_apply (m : String → Option (List AdjEntry)) (e : Edge) (id : String) :
    pushEdge m e id = (m id).map (· ++ entriesFor e id) := by
  unfold pushEdge entriesFor
  cases hm : m id with
  | none => split_ifs <;> simp_all
  | some l => split_ifs <;> simp_all

lemma foldl_pushEdge_apply (id : String) : ∀ (edges : List Edge)
    (m : String → Option (List AdjEntry)),
    (edges.foldl pushEdge m) id =
      (m id).map (· ++ edges.flatMap (entriesFor · id)) := by
  intro edges
  induction edges with
  | nil => intro m; cases hm : m id <;> simp [hm]
  | cons e es ih =>
    intro m
    rw [List.foldl_cons, ih, pushEdge_apply]
    cases hm : m id <;> simp [hm]

lemma initAdjacency_apply (id : String) : ∀ (nodes : List Node),
    initAdjacency nodes id = if id ∈ nodes.map Node.id then some [] else none := by
  have key : ∀ (nodes : List Node) (m : String → Option (List AdjEntry)),
      (nodes.foldl (fun m n => fun id2 => if id2 = n.id then some [] else m id2) m) id =
        if id ∈ nodes.map Node.id then some [] else m id := by
    intro nodes
    induction nodes with
    | nil => intro m; simp
    | cons n ns ih =>
      intro m
      rw [List.foldl_cons, ih]
      by_cases h : id = n.id <;> simp [h]
  intro nodes
  exact key nodes _

/-- The adjacency map, in closed form: defined exactly on the node ids,
where it lists the entries contributed by each edge in order. -/
lemma buildAdjacencyList_apply (nodes : List Node) (edges : List Edge) (id : String) :
    buildAdjacencyList nodes edges id =
      if id ∈ nodes.map Node.id then some (edges.flatMap (entriesFor · id)) else none := by
  unfold buildAdjacencyList
  rw [foldl_pushEdge_apply, initAdjacency_apply]
  by_cases h : id ∈ nodes.map Node.id <;> simp [h]

lemma entriesFor_countP (e e' : Edge) (id : String) :
    (entriesFor e' id).countP (fun a => decide (a.edge = e)) =
      if e' = e then
        ((if id = e.fromId then 1 else 0) + (if id = e.toId then 1 else 0))
      else 0 := by
  unfold entriesFor
  by_cases he : e' = e
  · subst he
    split_ifs <;> simp_all [List.countP_append, List.countP_cons]
  · split_ifs <;> simp_all [List.countP_append, List.countP_cons]

lemma flatMap_entries_countP (e : Edge) (id : String) : ∀ edges : List Edge,
    (edges.flatMap (entriesFor · id)).countP (fun a => decide (a.edge = e)) =
      edges.count e *
        ((if id = e.fromId then 1 else 0) + (if id = e.toId then 1 else 0)) := by
  intro edges
  induction edges with
  | nil => simp
  | cons e' es ih =>
    rw [List.flatMap_cons, List.countP_append, ih, entriesFor_countP, List.count_cons]
    by_cases he : e' = e <;> simp [he] <;> ring

/-- C9 counterexample: a self-loop with negative distance is neither
rejected nor ignored — `buildAdjacencyList` silently admits it, pushing it
twice onto its endpoint's adjacency list. -/
theorem c9_counterexample :
    buildAdjacencyList [loopNode] [loopEdge] "A" =
      some [⟨"A", loopEdge⟩, ⟨"A", loopEdge⟩] := by
  rfl

/-- C9 (amended): construction never validates or rejects; it is total,
and a well-formed edge (distinct endpoints, both known, listed once)
appears in exactly two adjacency entries — once under each endpoint and
nowhere else. -/
theorem c9_wellformed_edge_twice (nodes : List Node) (edges : List Edge) (e : Edge)
    (honce : edges.count e = 1) (hne : e.fromId ≠ e.toId)
    (hfrom : e.fromId ∈ nodes.map Node.id) (hto : e.toId ∈ nodes.map Node.id) :
    (buildAdjacencyList nodes edges e.fromId).isSome = true ∧
    ((buildAdjacencyList nodes edges e.fromId).getD []).countP
      (fun a => decide (a.edge = e)) = 1 ∧
    ((buildAdjacencyList nodes edges e.toId).getD []).countP
      (fun a => decide (a.edge = e)) = 1 ∧
    ∀ id, id ≠ e.fromId → id ≠ e.toId →
      ((buildAdjacencyList nodes edges id).getD []).countP
        (fun a => decide (a.edge = e)) = 0 := by
  refine ⟨?_, ?_, ?_, ?_⟩
  · rw [buildAdjacencyList_apply, if_pos hfrom]
    rfl
  · rw [buildAdjacencyList_apply, if_pos hfrom, Option.getD_some,
      flatMap_entries_countP, honce]
    simp [hne, Ne.symm hne]
  · rw [buildAdjacencyList_apply, if_pos hto, Option.getD_some,
      flatMap_entries_countP, honce]
    simp [hne, Ne.symm hne]
  · intro id hid1 hid2
    rw [buildAdjacencyList_apply]
    by_cases hmem : id ∈ nodes.map Node.id
    · rw [if_pos hmem, Option.getD_some, flatMap_entries_countP]
      simp [hid1, hid2]
    · rw [if_neg hmem]
      rfl

/-- C9 witness: `wfEdge` lands in exactly two adjacency entries of the
two-node graph — one under each endpoint, none under an unrelated id. -/
theorem c9_wellformed_edge_twice_witness :
    (buildAdjacencyList wfNodes [wfEdge] wfEdge.fromId).isSome = true ∧
    ((buildAdjacencyList wfNodes [wfEdge] wfEdge.fromId).getD []).countP
      (fun a => decide (a.edge = wfEdge)) = 1 ∧
    ((buildAdjacencyList wfNodes [wfEdge] wfEdge.toId).getD []).countP
      (fun a => decide (a.edge = wfEdge)) = 1 ∧
    ((buildAdjacencyList wfNodes [wfEdge] "Z").getD []).countP
      (fun a => decide (a.edge = wfEdge)) = 0 := by
  have h := c9_wellformed_edge_twice wfNodes [wfEdge] wfEdge
    (by decide) (by decide) (by decide) (by decide)
  exact ⟨h.1, h.2.1, h.2.2.1, h.2.2.2 "Z" (by decide) (by decide)⟩

/-! ## The A* loop: case equations and invariants -/

lemma reconstructLoop_stop1 (cameFrom : String → Option String)
    (edgeUsed : String → Option Edge) (profile : Profile) (fuel : Nat)
    (current : String) (path : List String) (edges : List Edge) (dist : ℚ)
    (issues : List Issue) (h1 : cameFrom current = none) :
    reconstructLoop cameFrom edgeUsed profile fuel current path edges dist issues =
      some (path, edges, dist, issues) := by
  rw [reconstructLoop, h1]

lemma reconstructLoop_stop2 (cameFrom : String → Option String)
    (edgeUsed : String → Option Edge) (profile : Profile) (fuel : Nat)
    (current : String) (path : List String) (edges : List Edge) (dist : ℚ)
    (issues : List Issue) (h2 : edgeUsed current = none) :
    reconstructLoop cameFrom edgeUsed profile fuel current path edges dist issues =
      some (path, edges, dist, issues) := by
  rw [reconstructLoop, h2]
  rcases cameFrom current with _ | prev <;> rfl

lemma reconstructLoop_zero (cameFrom : String → Option String)
    (edgeUsed : String → Option Edge) (profile : Profile)
    (current : String) (path : List String) (edges : List Edge) (dist : ℚ)
    (issues : List Issue) (prev : String) (edge : Edge)
    (h1 : cameFrom current = some prev) (h2 : edgeUsed current = some edge) :
    reconstructLoop cameFrom edgeUsed profile 0 current path edges dist issues =
      none := by
  rw [reconstructLoop, h1, h2]

lemma reconstructLoop_step (cameFrom : String → Option String)
    (edgeUsed : String → Option Edge) (profile : Profile) (fuel : Nat)
    (current : String) (path : List String) (edges : List Edge) (dist : ℚ)
    (issues : List Issue) (prev : String) (edge : Edge)
    (h1 : cameFrom current = some prev) (h2 : edgeUsed current = some edge) :
    reconstructLoop cameFrom edgeUsed profile (fuel + 1) current path edges dist issues =
      reconstructLoop cameFrom edgeUsed profile fuel prev (prev :: path)
        (edge :: edges) (dist + edge.distance)
        (if getEdgeAccessibilityLevel edge profile ≠ "accessible" then
          issues ++ [⟨edge, getEdgeAccessibilityLevel edge profile, issueReasons edge⟩]
        else issues) := by
  rw [reconstructLoop, h1, h2]

lemma searchLoop_empty (graph : String → Option (List AdjEntry)) (endId : String)
    (profile : Profile) (h : String → ℚ) (fuel : Nat) (st : SearchState)
    (hs : sortByF st.openSet = []) :
    searchLoop graph endId profile h fuel st = some notFoundResult := by
  rw [searchLoop, hs]

lemma searchLoop_goal (graph : String → Option (List AdjEntry)) (endId : String)
    (profile : Profile) (h : String → ℚ) (fuel : Nat) (st : SearchState)
    (current : OpenEntry) (rest : List OpenEntry)
    (hs : sortByF st.openSet = current :: rest) (hgoal : current.id = endId) :
    searchLoop graph endId profile h fuel st =
      reconstructPath fuel st.cameFrom st.edgeUsed current.id
        ((st.gScore endId).getD 0) profile := by
  rw [searchLoop, hs]
  simp [hgoal]

lemma searchLoop_zero (graph : String → Option (List AdjEntry)) (endId : String)
    (profile : Profile) (h : String → ℚ) (st : SearchState)
    (current : OpenEntry) (rest : List OpenEntry)
    (hs : sortByF st.openSet = current :: rest) (hgoal : ¬ current.id = endId) :
    searchLoop graph endId profile h 0 st = none := by
  rw [searchLoop, hs]
  simp [hgoal]

lemma searchLoop_step (graph : String → Option (List AdjEntry)) (endId : String)
    (profile : Profile) (h : String → ℚ) (fuel : Nat) (st : SearchState)
    (current : OpenEntry) (rest : List OpenEntry)
    (hs : sortByF st.openSet = current :: rest) (hgoal : ¬ current.id = endId) :
    searchLoop graph endId profile h (fuel + 1) st =
      searchLoop graph endId profile h fuel
        (((graph current.id).getD []).foldl (relaxNeighbor profile h current.id)
          { st with openSet := rest }) := by
  rw [searchLoop, hs]
  simp [hgoal]

lemma relaxNeighbor_edgesAccessible {profile : Profile} {h : String → ℚ}
    {cid : String} {st : SearchState} {nb : AdjEntry}
    (hst : edgesAccessible profile st) :
    edgesAccessible profile (relaxNeighbor profile h cid st nb) := by
  intro id e he
  unfold relaxNeighbor at he
  by_cases h1 : isEdgeAccessible nb.edge profile = false
  · rw [if_pos h1] at he
    exact hst id e he
  · rw [if_neg h1] at he
    by_cases h2 : improvesGScore (st.gScore nb.toId)
        (tentativeGScore profile st cid nb) = true
    · rw [if_pos h2] at he
      simp only at he
      by_cases hid : id = nb.toId
      · rw [if_pos hid] at he
        cases he
        revert h1
        cases isEdgeAccessible nb.edge profile <;> simp
      · rw [if_neg hid] at he
        exact hst id e he
    · rw [if_neg h2] at he
      exact hst id e he

lemma foldl_relax_edgesAccessible {profile : Profile} {h : String → ℚ}
    {cid : String} : ∀ (nbs : List AdjEntry) (st : SearchState),
    edgesAccessible profile st →
    edgesAccessible profile (nbs.foldl (relaxNeighbor profile h cid) st) := by
  intro nbs
  induction nbs with
  | nil => intro st hst; exact hst
  | cons nb rest ih =>
    intro st hst
    exact ih _ (relaxNeighbor_edgesAccessible hst)

/-- If the back-pointer walk returns, every returned edge passed the gate
(provided the accumulator did and `edgeUsed` only holds gate-passing
edges), and the returned path is nonempty when the accumulator was. -/
lemma reconstructLoop_spec (cameFrom : String → Option String)
    (edgeUsed : String → Option Edge) (profile : Profile)
    (hinv : ∀ id e, edgeUsed id = some e → isEdgeAccessible e profile = true) :
    ∀ (fuel : Nat) (current : String) (path : List String) (edges : List Edge)
      (dist : ℚ) (issues : List Issue) (p : List String) (es : List Edge)
      (d : ℚ) (iss : List Issue),
    reconstructLoop cameFrom edgeUsed profile fuel current path edges dist issues =
      some (p, es, d, iss) →
    (∀ e ∈ edges, isEdgeAccessible e profile = true) →
    ((∀ e ∈ es, isEdgeAccessible e profile = true) ∧ (path ≠ [] → p ≠ [])) := by
  intro fuel
  induction fuel with
  | zero =>
    intro current path edges dist issues p es d iss heq hedges
    rcases hc : cameFrom current with _ | prev
    · rw [reconstructLoop_stop1 _ _ _ _ _ _ _ _ _ hc] at heq
      cases heq
      exact ⟨hedges, fun hne => hne⟩
    · rcases he : edgeUsed current with _ | edge
      · rw [reconstructLoop_stop2 _ _ _ _ _ _ _ _ _ he] at heq
        cases heq
        exact ⟨hedges, fun hne => hne⟩
      · rw [reconstructLoop_zero _ _ _ _ _ _ _ _ _ _ hc he] at heq
        exact absurd heq (by simp)
  | succ fuel ih =>
    intro current path edges dist issues p es d iss heq hedges
    rcases hc : cameFrom current with _ | prev
    · rw [reconstructLoop_stop1 _ _ _ _ _ _ _ _ _ hc] at heq
      cases heq
      exact ⟨hedges, fun hne => hne⟩
    · rcases he : edgeUsed current with _ | edge
      · rw [reconstructLoop_stop2 _ _ _ _ _ _ _ _ _ he] at heq
        cases heq
        exact ⟨hedges, fun hne => hne⟩
      · rw [reconstructLoop_step _ _ _ _ _ _ _ _ _ _ _ hc he] at heq
        have hedges' : ∀ e2 ∈ edge :: edges, isEdgeAccessible e2 profile = true := by
          intro e2 he2
          rcases List.mem_cons.mp he2 with h | h
          · subst h; exact hinv current e2 he
          · exact hedges e2 h
        have := ih prev (prev :: path) (edge :: edges) (dist + edge.distance) _
          p es d iss heq hedges'
        exact ⟨this.1, fun _ => this.2 (by simp)⟩

/-- A successful reconstruction carries `totalWeight`, a computed score, no
`notFound` flag, a nonempty path, and only gate-passing edges. -/
lemma reconstructPath_spec (fuel : Nat) (cameFrom : String → Option String)
    (edgeUsed : String → Option Edge) (endId : String) (w : ℚ)
    (profile : Profile) (res : RouteResult)
    (hinv : ∀ id e, edgeUsed id = some e → isEdgeAccessible e profile = true)
    (heq : reconstructPath fuel cameFrom edgeUsed endId w profile = some res) :
    (∀ e ∈ res.edges, isEdgeAccessible e profile = true) ∧
    res.path ≠ [] ∧ res.totalWeight = some w ∧
    res.accessibilityScore = some (calculateAccessibilityScore res.edges profile) ∧
    res.notFound = false := by
  unfold reconstructPath at heq
  rcases hr : reconstructLoop cameFrom edgeUsed profile fuel endId [endId] [] 0 []
    with _ | ⟨p, es, d, iss⟩
  · rw [hr] at heq
    exact absurd heq (by simp)
  · rw [hr] at heq
    have hspec := reconstructLoop_spec cameFrom edgeUsed profile hinv fuel endId
      [endId] [] 0 [] p es d iss hr (by intro e he; exact absurd he (List.not_mem_nil e))
    cases heq
    exact ⟨hspec.1, hspec.2 (by simp), rfl, rfl, rfl⟩

/-- Whatever the loop returns is either the not-found failure object or a
successful reconstruction (nonempty path, both optional fields present, no
flag), and its edges all passed the gate. -/
lemma searchLoop_spec (graph : String → Option (List AdjEntry)) (endId : String)
    (profile : Profile) (h : String → ℚ) :
    ∀ (fuel : Nat) (st : SearchState) (res : RouteResult),
    searchLoop graph endId profile h fuel st = some res →
    edgesAccessible profile st →
    ((∀ e ∈ res.edges, isEdgeAccessible e profile = true) ∧
     (res = notFoundResult ∨
      (res.path ≠ [] ∧ res.totalWeight.isSome ∧ res.accessibilityScore.isSome ∧
        res.notFound = false))) := by
  intro fuel
  induction fuel with
  | zero =>
    intro st res heq hst
    rcases hs : sortByF st.openSet with _ | ⟨current, rest⟩
    · rw [searchLoop_empty _ _ _ _ _ _ hs] at heq
      cases heq
      exact ⟨by simp [notFoundResult], Or.inl rfl⟩
    · by_cases hgoal : current.id = endId
      · rw [searchLoop_goal _ _ _ _ _ _ _ _ hs hgoal] at heq
        have := reconstructPath_spec _ _ _ _ _ _ _ hst heq
        exact ⟨this.1, Or.inr ⟨this.2.1, by rw [this.2.2.1]; rfl,
          by rw [this.2.2.2.1]; rfl, this.2.2.2.2⟩⟩
      · rw [searchLoop_zero _ _ _ _ _ _ _ hs hgoal] at heq
        exact absurd heq (by simp)
  | succ fuel ih =>
    intro st res heq hst
    rcases hs : sortByF st.openSet with _ | ⟨current, rest⟩
    · rw [searchLoop_empty _ _ _ _ _ _ hs] at heq
      cases heq
      exact ⟨by simp [notFoundResult], Or.inl rfl⟩
    · by_cases hgoal : current.id = endId
      · rw [searchLoop_goal _ _ _ _ _ _ _ _ hs hgoal] at heq
        have := reconstructPath_spec _ _ _ _ _ _ _ hst heq
        exact ⟨this.1, Or.inr ⟨this.2.1, by rw [this.2.2.1]; rfl,
          by rw [this.2.2.2.1]; rfl, this.2.2.2.2⟩⟩
      · rw [searchLoop_step _ _ _ _ _ _ _ _ hs hgoal] at heq
        exact ih _ res heq (foldl_relax_edgesAccessible _ _ hst)

/-- Any returned route result is the bad-input object, the not-found
object, or a successful reconstruction; in every case its edges passed the
gate. -/
lemma findAccessibleRoute_spec (graph : String → Option (List AdjEntry))
    (nodes : List Node) (startId endId : String) (profile : Profile)
    (h : String → ℚ) (fuel : Nat) (res : RouteResult)
    (heq : findAccessibleRoute graph nodes startId endId profile h fuel = some res) :
    (∀ e ∈ res.edges, isEdgeAccessible e profile = true) ∧
    (res = badInputResult ∨ res = notFoundResult ∨
     (res.path ≠ [] ∧ res.totalWeight.isSome ∧ res.accessibilityScore.isSome ∧
       res.notFound = false)) := by
  rcases h1 : nodeLookup nodes startId with _ | n1 <;>
    rcases h2 : nodeLookup nodes endId with _ | n2 <;>
    simp only [findAccessibleRoute, h1, h2] at heq
  · cases heq
    exact ⟨by simp [badInputResult], Or.inl rfl⟩
  · cases heq
    exact ⟨by simp [badInputResult], Or.inl rfl⟩
  · cases heq
    exact ⟨by simp [badInputResult], Or.inl rfl⟩
  · have := searchLoop_spec graph endId profile h fuel _ res heq
      (by intro id e he; exact absurd he (by simp))
    exact ⟨this.1, Or.inr this.2⟩

/-! ## C3 — only gate-passing edges are ever traversed -/

/-- C3: every edge of any returned route satisfies `isEdgeAccessible` for
the query's profile (inaccessible edges are skipped before costing and
never enqueued), and the concrete query whose only connection fails the
gate returns the not-found result. -/
theorem c3_gate_governs :
    (∀ (graph : String → Option (List AdjEntry)) (nodes : List Node)
        (startId endId : String) (profile : Profile) (h : String → ℚ)
        (fuel : Nat) (res : RouteResult),
      findAccessibleRoute graph nodes startId endId profile h fuel = some res →
      ∀ e ∈ res.edges, isEdgeAccessible e profile = true) ∧
    findAccessibleRoute (buildAdjacencyList gateNodes [gateEdge]) gateNodes
      "A" "C" gateProfile (fun _ => 0) 2 = some notFoundResult := by
  constructor
  · intro graph nodes startId endId profile h fuel res heq
    exact (findAccessibleRoute_spec graph nodes startId endId profile h fuel res heq).1
  · rfl

/-- C3 witness: the gate-failing query returns the not-found result, whose
edge list passes the all-edges-accessible check. -/
theorem c3_gate_governs_witness :
    notFoundResult.edges.all (fun e => isEdgeAccessible e gateProfile) = true :=
  List.all_eq_true.mpr fun e he =>
    c3_gate_governs.1 (buildAdjacencyList gateNodes [gateEdge]) gateNodes
      "A" "C" gateProfile (fun _ => 0) 2 notFoundResult (by rfl) e he

/-! ## C4 — relaxation updates and the stale open-set entry -/

/-- C4 counterexample: relaxing B from A in `staleState` improves
(establishes) B's g-score, yet the open set still holds the old entry with
f-score 999, strictly above the claimed f-score tentative cost +
heuristic, so the stale entry was not replaced. -/
theorem c4_counterexample :
    isEdgeAccessible staleEdge staleProfile = true ∧
    improvesGScore (staleState.gScore "B")
      (tentativeGScore staleProfile staleState "A" ⟨"B", staleEdge⟩) = true ∧
    (relaxNeighbor staleProfile (fun _ => 0) "A" staleState ⟨"B", staleEdge⟩).openSet =
      [⟨"B", 999⟩] ∧
    tentativeGScore staleProfile staleState "A" ⟨"B", staleEdge⟩ +
      (fun _ => (0:ℚ)) "B" < 999 := by
  refine ⟨by decide, by rfl, by rfl, ?_⟩
  norm_num [tentativeGScore, staleState, staleEdge, staleProfile, calculateEdgeWeight,
    weightAfterWidth, weightAfterCurb, weightAfterSlope, weightAfterSurface,
    surfacePenalty, strTruthy]

/-- C4 (amended): an improving relaxation records the back-pointer, edge
and g-score, and pushes an open-set entry with f-score = tentative cost +
heuristic only when no entry for the neighbor is present; an existing
entry is left unchanged (its f-score is not refreshed). -/
theorem c4_relax_updates (profile : Profile) (h : String → ℚ) (currentId : String)
    (st : SearchState) (nb : AdjEntry)
    (hacc : isEdgeAccessible nb.edge profile = true)
    (himp : improvesGScore (st.gScore nb.toId)
      (tentativeGScore profile st currentId nb) = true) :
    (relaxNeighbor profile h currentId st nb).cameFrom nb.toId = some currentId ∧
    (relaxNeighbor profile h currentId st nb).edgeUsed nb.toId = some nb.edge ∧
    (relaxNeighbor profile h currentId st nb).gScore nb.toId =
      some (tentativeGScore profile st currentId nb) ∧
    (relaxNeighbor profile h currentId st nb).openSet =
      (if (st.openSet.find? (fun n => n.id = nb.toId)).isSome then st.openSet
       else st.openSet ++
         [⟨nb.toId, tentativeGScore profile st currentId nb + h nb.toId⟩]) := by
  unfold relaxNeighbor
  rw [if_neg (by rw [hacc]; simp), if_pos himp]
  exact ⟨by simp, by simp, by simp, rfl⟩

/-- C4 witness: the amended update behaviour at the concrete stale state. -/
theorem c4_relax_updates_witness :
    (relaxNeighbor staleProfile (fun _ => 0) "A" staleState ⟨"B", staleEdge⟩).cameFrom "B" =
      some "A" ∧
    (relaxNeighbor staleProfile (fun _ => 0) "A" staleState ⟨"B", staleEdge⟩).edgeUsed "B" =
      some staleEdge ∧
    (relaxNeighbor staleProfile (fun _ => 0) "A" staleState ⟨"B", staleEdge⟩).gScore "B" =
      some (tentativeGScore staleProfile staleState "A" ⟨"B", staleEdge⟩) ∧
    (relaxNeighbor staleProfile (fun _ => 0) "A" staleState ⟨"B", staleEdge⟩).openSet =
      (if (staleState.openSet.find? (fun n => n.id = "B")).isSome then staleState.openSet
       else staleState.openSet ++
         [⟨"B", tentativeGScore staleProfile staleState "A" ⟨"B", staleEdge⟩ +
           (fun _ => (0:ℚ)) "B"⟩]) :=
  c4_relax_updates staleProfile (fun _ => 0) "A" staleState ⟨"B", staleEdge⟩
    (by decide) (by rfl)

/-! ## C5 — failure results, not exceptions -/

/-- C5: a query with a missing endpoint returns the bad-input result
(empty path/edges, zero distance, empty issues, no `notFound` flag), and a
search whose open set has emptied returns the not-found result. -/
theorem c5_failure_results :
    (∀ (graph : String → Option (List AdjEntry)) (nodes : List Node)
        (startId endId : String) (profile : Profile) (h : String → ℚ) (fuel : Nat),
      (nodeLookup nodes startId = none ∨ nodeLookup nodes endId = none) →
      findAccessibleRoute graph nodes startId endId profile h fuel =
        some badInputResult) ∧
    (∀ (graph : String → Option (List AdjEntry)) (endId : String)
        (profile : Profile) (h : String → ℚ) (fuel : Nat)
        (cameFrom : String → Option String) (gScore : String → Option ℚ)
        (edgeUsed : String → Option Edge),
      searchLoop graph endId profile h fuel ⟨[], cameFrom, gScore, edgeUsed⟩ =
        some notFoundResult) := by
  constructor
  · intro graph nodes startId endId profile h fuel hmiss
    rcases h1 : nodeLookup nodes startId with _ | n1 <;>
      rcases h2 : nodeLookup nodes endId with _ | n2 <;>
      simp only [findAccessibleRoute, h1, h2]
    rcases hmiss with hm | hm
    · rw [h1] at hm
      exact absurd hm (by simp)
    · rw [h2] at hm
      exact absurd hm (by simp)
  · intro graph endId profile h fuel cameFrom gScore edgeUsed
    exact searchLoop_empty _ _ _ _ _ _ rfl

/-- C5 witness: a concrete missing-endpoint query and a concrete emptied
open set, each returning its failure object. -/
theorem c5_failure_results_witness :
    findAccessibleRoute (fun _ => none) [] "X" "Y" gateProfile (fun _ => 0) 3 =
      some badInputResult ∧
    searchLoop (fun _ => none) "Y" gateProfile (fun _ => 0) 3
      ⟨[], fun _ => none, fun _ => none, fun _ => none⟩ = some notFoundResult :=
  ⟨c5_failure_results.1 (fun _ => none) [] "X" "Y" gateProfile (fun _ => 0) 3
      (Or.inl (by rfl)),
    c5_failure_results.2 (fun _ => none) "Y" gateProfile (fun _ => 0) 3
      (fun _ => none) (fun _ => none) (fun _ => none)⟩

/-! ## C7 — the trivial same-node route -/

/-- C7: when the start node exists and equals the end node, the search
returns on the first extraction with path `[s]`, no edges, zero distance
and weight, score 100 and no issues. -/
theorem c7_trivial_route (graph : String → Option (List AdjEntry))
    (nodes : List Node) (s : String) (profile : Profile) (h : String → ℚ)
    (fuel : Nat) (node : Node) (hs : nodeLookup nodes s = some node) :
    findAccessibleRoute graph nodes s s profile h fuel =
      some ⟨[s], [], 0, some 0, [], some 100, false⟩ := by
  simp only [findAccessibleRoute, hs]
  rw [searchLoop_goal graph s profile h fuel _ ⟨s, h s⟩ [] (by rfl) rfl]
  unfold reconstructPath
  rw [reconstructLoop_stop1 _ _ _ _ _ _ _ _ _ rfl]
  simp [calculateAccessibilityScore]

/-- C7 witness: the same-node query on a one-node graph. -/
theorem c7_trivial_route_witness :
    findAccessibleRoute (fun _ => none) [⟨"A", 0, 0⟩] "A" "A" gateProfile
      (fun _ => 0) 0 = some ⟨["A"], [], 0, some 0, [], some 100, false⟩ :=
  c7_trivial_route (fun _ => none) [⟨"A", 0, 0⟩] "A" gateProfile (fun _ => 0) 0
    ⟨"A", 0, 0⟩ (by rfl)

/-! ## C10 — failure results omit the optional fields -/

/-- C10: a returned result with an empty path (either failure object)
carries neither `totalWeight` nor `accessibilityScore`, while a returned
result with a nonempty path carries both. -/
theorem c10_failure_fields (graph : String → Option (List AdjEntry))
    (nodes : List Node) (startId endId : String) (profile : Profile)
    (h : String → ℚ) (fuel : Nat) (res : RouteResult)
    (heq : findAccessibleRoute graph nodes startId endId profile h fuel = some res) :
    (res.path = [] → res.totalWeight = none ∧ res.accessibilityScore = none) ∧
    (res.path ≠ [] → res.totalWeight.isSome ∧ res.accessibilityScore.isSome) := by
  have hs := findAccessibleRoute_spec graph nodes startId endId profile h fuel res heq
  rcases hs.2 with h1 | h1 | h1
  · subst h1
    exact ⟨fun _ => ⟨rfl, rfl⟩, fun hne => absurd rfl hne⟩
  · subst h1
    exact ⟨fun _ => ⟨rfl, rfl⟩, fun hne => absurd rfl hne⟩
  · exact ⟨fun hp => absurd hp h1.1, fun _ => ⟨h1.2.1, h1.2.2.1⟩⟩

/-- C10 witness: the concrete missing-endpoint query returns a result with
both optional fields absent. -/
theorem c10_failure_fields_witness :
    badInputResult.totalWeight = none ∧ badInputResult.accessibilityScore = none :=
  (c10_failure_fields (fun _ => none) [] "X" "Y" gateProfile (fun _ => 0) 3
    badInputResult (by rfl)).1 (by rfl)

end EasyWay
